import Mathlib

/-!
Verification development for the `advanced-react-hooks` repository.

Two components are in scope:

* `AsyncTracker` — the cancellation-safe asynchronous state tracker
  (the spec's `AsyncTaskTracker`, the `useAsync` hook of exercise 02's
  extra credits 2–3).  Its implementation is described only in the
  repository's lesson text, so the operational model below is built from
  the specification's words (see the doc comments starting
  `Modelled from the spec:`).
* `Ex01` — the `countReducer` function of `src/src/exercise/01.js`,
  embedded directly from the source.

The file is organised as definitions first, then theorems.
-/

namespace AsyncTracker

/-- Modelled from the spec: the lifecycle status of the tracked
asynchronous operation, one of idle / pending / resolved / rejected
(spec §3, TaskState.status). -/
inductive Status where
  | idle
  | pending
  | resolved
  | rejected
deriving DecidableEq, Repr

/-- Modelled from the spec: the TaskState record — `status`, the success
value `data` (absent unless resolved) and the failure reason `error`
(absent unless rejected) (spec §3). -/
structure TaskState where
  status : Status
  data : Option String
  error : Option String
deriving DecidableEq, Repr

/-- The state published by a fresh `run`: `{status: pending, data: null, error: null}`. -/
def pendingState : TaskState := ⟨Status.pending, none, none⟩

/-- The state published by a successful settlement with value `v`. -/
def resolvedState (v : String) : TaskState := ⟨Status.resolved, some v, none⟩

/-- The state published by a failed settlement with reason `e`. -/
def rejectedState (e : String) : TaskState := ⟨Status.rejected, none, some e⟩

/-- Modelled from the spec: the whole tracker — the current TaskState,
the one-way disposal flag, the identifiers of in-flight (registered but
unsettled) operations, a fresh-identifier counter, and the token of the
`run` entry point constructed at initialization (spec §3–§5; the
`run`/`safeDispatch` implementation is absent from `src/`, only the
lesson text describes it). -/
structure Sys where
  st : TaskState
  disposed : Bool
  live : List Nat
  next : Nat
  runTok : Nat
deriving DecidableEq, Repr

/-- Modelled from the spec: `initialize(initialState)` allocates the
tracker with the caller-supplied TaskState, disposal flag false, no
in-flight operation, and the `run` entry point constructed once (spec §4.1). -/
def init (t0 : TaskState) : Sys :=
  { st := t0, disposed := false, live := [], next := 0, runTok := 0 }

/-- Modelled from the spec: every state mutation goes through a dispatch
that first checks the disposal flag and performs no mutation once it is
set (spec §4.1 `run`/`dispose`, the `safeDispatch` of extra credit 3). -/
def safeDispatch (s : Sys) (t : TaskState) : Sys :=
  if s.disposed then s else { s with st := t }

/-- Modelled from the spec: `run(operation)` dispatches the pending state
and registers the operation's continuations; the registered operation is
recorded as in-flight under a fresh identifier (spec §4.1 `run`). -/
def doRun (s : Sys) : Sys :=
  { safeDispatch s pendingState with live := s.next :: s.live, next := s.next + 1 }

/-- Modelled from the spec: `dispose()` sets the disposal flag to true
and touches nothing else (spec §4.1 `dispose`). -/
def doDispose (s : Sys) : Sys :=
  { s with disposed := true }

/-- Modelled from the spec: the success continuation of in-flight
operation `i` fires with value `v` — it dispatches the resolved state
through the disposal-checked dispatch and the operation is settled
(spec §4.1 `run`, success continuation). -/
def doSettleOk (s : Sys) (i : Nat) (v : String) : Sys :=
  { safeDispatch s (resolvedState v) with live := s.live.erase i }

/-- Modelled from the spec: the failure continuation of in-flight
operation `i` fires with reason `e` — the failure is absorbed into the
state through the disposal-checked dispatch, never re-raised
(spec §4.1 `run`, failure continuation; §7). -/
def doSettleErr (s : Sys) (i : Nat) (e : String) : Sys :=
  { safeDispatch s (rejectedState e) with live := s.live.erase i }

/-- Modelled from the spec: the outcome delivered by the operation
supplier — a success value or a failure reason (spec §6). -/
inductive Outcome where
  | ok (v : String)
  | err (e : String)

/-- Modelled from the spec: settlement of in-flight operation `i`
dispatches the continuation matching the outcome; the tracker itself is a
total function of the outcome — it never raises (spec §7). -/
def settle (s : Sys) (i : Nat) (o : Outcome) : Sys :=
  match o with
  | Outcome.ok v => doSettleOk s i v
  | Outcome.err e => doSettleErr s i e

/-- Modelled from the spec: `getState()` returns the current TaskState
snapshot, purely observational (spec §4.1). -/
def getState (s : Sys) : TaskState := s.st

/-- Modelled from the spec: one step of the single-threaded cooperative
schedule — a `run` call, a `dispose` call, or the firing of a settlement
continuation of some in-flight operation, in any order (spec §5). -/
inductive Step : Sys → Sys → Prop where
  | run (s : Sys) : Step s (doRun s)
  | dispose (s : Sys) : Step s (doDispose s)
  | settleOk (s : Sys) (i : Nat) (v : String) : i ∈ s.live → Step s (doSettleOk s i v)
  | settleErr (s : Sys) (i : Nat) (e : String) : i ∈ s.live → Step s (doSettleErr s i e)

/-- Mutual exclusivity of the `data` and `error` fields (spec §3 invariant). -/
def Exclusive (t : TaskState) : Prop := t.data = none ∨ t.error = none

/-- System invariant: while the tracker is not disposed, an in-flight
operation can only exist after some `run`, hence never with status idle. -/
def GoodLive (s : Sys) : Prop :=
  s.st.status = Status.idle → s.disposed = true ∨ s.live = []

/-- The four legal values of the status field. -/
def StatusWf (b : Status) : Prop :=
  b = Status.idle ∨ b = Status.pending ∨ b = Status.resolved ∨ b = Status.rejected

/-- Status changes observed in the model: every change targets `pending`
(a new `run`), or settles to `resolved`/`rejected` from a non-idle status. -/
def AllowedChange (a b : Status) : Prop :=
  b = Status.pending ∨ (a ≠ Status.idle ∧ (b = Status.resolved ∨ b = Status.rejected))

/-- Concrete scenario material: the usual initial TaskState `{status: idle}`. -/
def tIdle : TaskState := ⟨Status.idle, none, none⟩

/-- Scenario state: freshly initialized tracker. -/
def w0 : Sys := init tIdle

/-- Scenario state: after one `run` (operation 0 in flight). -/
def w1 : Sys := doRun w0

/-- Scenario state: after a second overlapping `run` (operations 0 and 1 in flight). -/
def w2 : Sys := doRun w1

/-- Scenario state: the newer operation 1 resolved with value "new". -/
def w3 : Sys := doSettleOk w2 1 "new"

/-- Scenario state: the stale operation 0 resolved later with value "stale". -/
def w4 : Sys := doSettleOk w3 0 "stale"

/-- Scenario state: the stale operation 0 rejected after operation 1 resolved. -/
def w3e : Sys := doSettleErr w3 0 "boom"

/-- Scenario state: tracker disposed while operation 0 is still in flight. -/
def d1 : Sys := doDispose w1

end AsyncTracker

namespace Ex01

/-- A JavaScript object as used by exercise 01: an ordered list of
string-keyed fields holding numbers (the exercise only ever stores the
`count` number). -/
abbrev JsObj := List (String × Int)

/-- Field lookup on a JavaScript object: the value at key `k`, `none`
when the key is absent. -/
def getField : JsObj → String → Option Int
  | [], _ => none
  | (k1, v1) :: rest, k => if k1 = k then some v1 else getField rest k

/-- Field assignment as performed by an object-literal spread: overwrite
the key in place when present, append it otherwise. -/
def setField : JsObj → String → Int → JsObj
  | [], k, v => [(k, v)]
  | (k1, v1) :: rest, k, v =>
      if k1 = k then (k1, v) :: rest else (k1, v1) :: setField rest k v

/-- The object literal `{...state, ...action}` of `countReducer`
(src/src/exercise/01.js line 16–19): every field of `action` is assigned
over a copy of `state`, in order. -/
def spreadMerge (state action : JsObj) : JsObj :=
  action.foldl (fun acc p => setField acc p.fst p.snd) state

/-- An action passed to `countReducer`: either a plain object or a
function of the current state (the `typeof action === 'function'` branch
of src/src/exercise/01.js line 14). -/
inductive Action where
  | obj : JsObj → Action
  | fn : (JsObj → Action) → Action

/-- The single resolution step `action = typeof action === 'function' ?
action(state) : action` of src/src/exercise/01.js line 14. -/
def resolveAction (state : JsObj) : Action → Action
  | Action.fn f => f state
  | a => a

/-- The `return {...state, ...action}` of src/src/exercise/01.js lines
16–19; spreading a function object contributes no enumerable own fields,
so the result is then just a copy of `state`. -/
def applyAction (state : JsObj) : Action → JsObj
  | Action.obj r => spreadMerge state r
  | Action.fn _ => state

/-- The `countReducer` of src/src/exercise/01.js lines 13–20: resolve a
function action against the current state once, then spread-merge the
result over the state. -/
def countReducer (state : JsObj) (action : Action) : JsObj :=
  applyAction state (resolveAction state action)

/-- Concrete scenario object: the initial state `{count: 0}`. -/
def c0 : JsObj := [("count", 0)]

/-- Concrete scenario action: a function action that itself returns a
function action (legal in JavaScript, where any value may be returned). -/
def fBad : JsObj → Action :=
  fun _ => Action.fn (fun _ => Action.obj [("count", 1)])

end Ex01

namespace AsyncTracker

@[simp] theorem safeDispatch_disposed (s : Sys) (t : TaskState) :
    (safeDispatch s t).disposed = s.disposed := by
  unfold safeDispatch; split <;> rfl

@[simp] theorem safeDispatch_runTok (s : Sys) (t : TaskState) :
    (safeDispatch s t).runTok = s.runTok := by
  unfold safeDispatch; split <;> rfl

theorem safeDispatch_st (s : Sys) (t : TaskState) :
    (safeDispatch s t).st = if s.disposed then s.st else t := by
  unfold safeDispatch; split <;> rfl

theorem safeDispatch_of_disposed (s : Sys) (t : TaskState) (h : s.disposed = true) :
    safeDispatch s t = s := by
  unfold safeDispatch; simp [h]

theorem safeDispatch_of_live (s : Sys) (t : TaskState) (h : s.disposed = false) :
    safeDispatch s t = { s with st := t } := by
  unfold safeDispatch; simp [h]

/-- Once the disposal flag is set, a single step neither mutates the
published TaskState nor clears the flag. -/
theorem step_frozen (s s' : Sys) (hd : s.disposed = true) (h : Step s s') :
    s'.st = s.st ∧ s'.disposed = true := by
  cases h with
  | run => exact ⟨by simp [doRun, safeDispatch, hd], by simp [doRun, hd]⟩
  | dispose => exact ⟨rfl, rfl⟩
  | settleOk i v hm => exact ⟨by simp [doSettleOk, safeDispatch, hd], by simp [doSettleOk, hd]⟩
  | settleErr i e hm => exact ⟨by simp [doSettleErr, safeDispatch, hd], by simp [doSettleErr, hd]⟩

/-- Every step preserves the `run`-handle token. -/
theorem step_runTok (s s' : Sys) (h : Step s s') : s'.runTok = s.runTok := by
  cases h with
  | run => simp [doRun]
  | dispose => rfl
  | settleOk i v hm => simp [doSettleOk]
  | settleErr i e hm => simp [doSettleErr]

/-- Every step preserves mutual exclusivity of `data` and `error`. -/
theorem step_exclusive (s s' : Sys) (h : Step s s') (he : Exclusive s.st) :
    Exclusive s'.st := by
  cases h with
  | run =>
      show Exclusive (safeDispatch s pendingState).st
      rw [safeDispatch_st]
      split
      · exact he
      · exact Or.inl rfl
  | dispose => exact he
  | settleOk i v hm =>
      show Exclusive (safeDispatch s (resolvedState v)).st
      rw [safeDispatch_st]
      split
      · exact he
      · exact Or.inr rfl
  | settleErr i e hm =>
      show Exclusive (safeDispatch s (rejectedState e)).st
      rw [safeDispatch_st]
      split
      · exact he
      · exact Or.inl rfl

theorem step_goodLive (s s' : Sys) (h : Step s s') (_hg : GoodLive s) : GoodLive s' := by
  cases h with
  | run =>
      intro hi
      cases hd : s.disposed
      · exfalso
        have hst : (doRun s).st = pendingState := by
          show (safeDispatch s pendingState).st = pendingState
          rw [safeDispatch_of_live s pendingState hd]
        rw [hst] at hi
        exact Status.noConfusion hi
      · exact Or.inl (by simp [doRun, hd])
  | dispose => intro _; exact Or.inl rfl
  | settleOk i v hm =>
      intro hi
      cases hd : s.disposed
      · exfalso
        have hst : (doSettleOk s i v).st = resolvedState v := by
          show (safeDispatch s (resolvedState v)).st = resolvedState v
          rw [safeDispatch_of_live s (resolvedState v) hd]
        rw [hst] at hi
        exact Status.noConfusion hi
      · exact Or.inl (by simp [doSettleOk, hd])
  | settleErr i e hm =>
      intro hi
      cases hd : s.disposed
      · exfalso
        have hst : (doSettleErr s i e).st = rejectedState e := by
          show (safeDispatch s (rejectedState e)).st = rejectedState e
          rw [safeDispatch_of_live s (rejectedState e) hd]
        rw [hst] at hi
        exact Status.noConfusion hi
      · exact Or.inl (by simp [doSettleErr, hd])

/-- Any reachable system satisfies `GoodLive` (the initial system has no
in-flight operation). -/
theorem reachable_goodLive (t0 : TaskState) (s : Sys)
    (h : Relation.ReflTransGen Step (init t0) s) : GoodLive s := by
  induction h with
  | refl => intro _; exact Or.inr rfl
  | tail h1 h2 ih => exact step_goodLive _ _ h2 ih

/-- Once disposed, any sequence of further steps leaves the published
TaskState untouched and the flag set. -/
theorem steps_frozen (s s' : Sys) (hd : s.disposed = true)
    (h : Relation.ReflTransGen Step s s') : s'.st = s.st ∧ s'.disposed = true := by
  induction h with
  | refl => exact ⟨rfl, hd⟩
  | tail h1 h2 ih =>
      obtain ⟨h3, h4⟩ := ih
      obtain ⟨h5, h6⟩ := step_frozen _ _ h4 h2
      exact ⟨h5.trans h3, h6⟩

/-- Any reachable system keeps `data` and `error` mutually exclusive,
provided the caller-supplied initial TaskState did. -/
theorem reachable_exclusive (t0 : TaskState) (s : Sys) (he : Exclusive t0)
    (h : Relation.ReflTransGen Step (init t0) s) : Exclusive s.st := by
  induction h with
  | refl => exact he
  | tail h1 h2 ih => exact step_exclusive _ _ h2 ih

theorem reach_w2 : Relation.ReflTransGen Step w0 w2 :=
  Relation.ReflTransGen.tail (Relation.ReflTransGen.single (Step.run w0)) (Step.run w1)

theorem reach_w3 : Relation.ReflTransGen Step w0 w3 :=
  Relation.ReflTransGen.tail reach_w2 (Step.settleOk w2 1 "new" (by decide))

end AsyncTracker

namespace AsyncTracker

/-- Claim C1: if `dispose()` is called while an operation passed to `run`
is still unsettled, the operation's later settlement (success or failure,
and indeed any further steps) never mutates the tracker's state —
`getState` after the settlement equals `getState` at dispose time,
because each continuation dispatches through the disposal-checked
dispatch and is a no-op once the flag is set. -/
theorem C1_settlement_after_dispose_noop (s s' : Sys) (hd : s.disposed = true)
    (h : Relation.ReflTransGen Step s s') : getState s' = getState s :=
  (steps_frozen s s' hd h).1

theorem C1_witness : getState (doSettleOk d1 0 "v") = getState d1 :=
  C1_settlement_after_dispose_noop d1 (doSettleOk d1 0 "v") rfl
    (Relation.ReflTransGen.single (Step.settleOk d1 0 "v" (by decide)))

/-- Claim C2: at every state reachable by initialize / run / dispose /
settlement steps (from a well-formed initial TaskState), the status is
one of idle, pending, resolved, rejected; `data` and `error` are never
both set; and a new `run` from a not-disposed state clears both. -/
theorem C2_state_invariant (t0 : TaskState) (s : Sys) (he : Exclusive t0)
    (h : Relation.ReflTransGen Step (init t0) s) :
    StatusWf (getState s).status ∧ Exclusive (getState s) ∧
      (s.disposed = false → getState (doRun s) = pendingState) := by
  refine ⟨?_, reachable_exclusive t0 s he h, ?_⟩
  · cases hb : (getState s).status with
    | idle => exact Or.inl rfl
    | pending => exact Or.inr (Or.inl rfl)
    | resolved => exact Or.inr (Or.inr (Or.inl rfl))
    | rejected => exact Or.inr (Or.inr (Or.inr rfl))
  · intro hd
    show (safeDispatch s pendingState).st = pendingState
    rw [safeDispatch_of_live s pendingState hd]

theorem C2_witness : StatusWf (getState w0).status ∧ Exclusive (getState w0) :=
  ⟨(C2_state_invariant tIdle w0 (Or.inl rfl) Relation.ReflTransGen.refl).1,
   (C2_state_invariant tIdle w0 (Or.inl rfl) Relation.ReflTransGen.refl).2.1⟩

/-- Claim C3 (amended): in any reachable system, the status field changes
only along: any status → pending via a new `run` (with data and error
cleared), and non-idle → {resolved, rejected} via settlement of a live
operation — the latter includes stale settlements that move the status
directly between resolved and rejected when runs overlap, which the
original claim's relation omits; no change ever targets idle and idle
never settles directly to resolved or rejected. -/
theorem C3_status_transitions (t0 : TaskState) (s s' : Sys)
    (h : Relation.ReflTransGen Step (init t0) s) (hs : Step s s')
    (hne : (getState s').status ≠ (getState s).status) :
    AllowedChange (getState s).status (getState s').status ∧
      (s.disposed = false → getState (doRun s) = pendingState) := by
  have hg := reachable_goodLive t0 s h
  constructor
  · cases hs with
    | run =>
        cases hd : s.disposed
        · have hst : (doRun s).st = pendingState := by
            show (safeDispatch s pendingState).st = pendingState
            rw [safeDispatch_of_live s pendingState hd]
          exact Or.inl (congrArg TaskState.status hst)
        · have hfr := (step_frozen s (doRun s) hd (Step.run s)).1
          exact absurd (congrArg TaskState.status hfr) hne
    | dispose => exact absurd rfl hne
    | settleOk i v hm =>
        cases hd : s.disposed
        · have hst : (doSettleOk s i v).st = resolvedState v := by
            show (safeDispatch s (resolvedState v)).st = resolvedState v
            rw [safeDispatch_of_live s (resolvedState v) hd]
          refine Or.inr ⟨?_, Or.inl (congrArg TaskState.status hst)⟩
          intro hidle
          rcases hg hidle with hcon | hcon
          · rw [hd] at hcon; exact Bool.noConfusion hcon
          · rw [hcon] at hm; exact (List.not_mem_nil i) hm
        · have hfr := (step_frozen s (doSettleOk s i v) hd (Step.settleOk s i v hm)).1
          exact absurd (congrArg TaskState.status hfr) hne
    | settleErr i e hm =>
        cases hd : s.disposed
        · have hst : (doSettleErr s i e).st = rejectedState e := by
            show (safeDispatch s (rejectedState e)).st = rejectedState e
            rw [safeDispatch_of_live s (rejectedState e) hd]
          refine Or.inr ⟨?_, Or.inr (congrArg TaskState.status hst)⟩
          intro hidle
          rcases hg hidle with hcon | hcon
          · rw [hd] at hcon; exact Bool.noConfusion hcon
          · rw [hcon] at hm; exact (List.not_mem_nil i) hm
        · have hfr := (step_frozen s (doSettleErr s i e) hd (Step.settleErr s i e hm)).1
          exact absurd (congrArg TaskState.status hfr) hne
  · intro hd
    show (safeDispatch s pendingState).st = pendingState
    rw [safeDispatch_of_live s pendingState hd]

theorem C3_witness : AllowedChange (getState w2).status (getState w3).status :=
  (C3_status_transitions tIdle w2 w3 reach_w2
    (Step.settleOk w2 1 "new" (by decide)) (by decide)).1

/-- Claim C3 is false as stated: from a reachable system whose status is
resolved (two overlapping runs, the newer settled first), the settlement
of the stale operation steps the status directly to rejected — a status
transition outside idle → pending → {resolved, rejected} and not a
re-entry into pending. -/
theorem C3_cx :
    Relation.ReflTransGen Step (init tIdle) w3 ∧ Step w3 w3e ∧
      (getState w3).status = Status.resolved ∧
      (getState w3e).status = Status.rejected ∧ w3.disposed = false :=
  ⟨reach_w3, Step.settleErr w3 0 "boom" (by decide), by decide, by decide, by decide⟩

/-- Claim C4: for every not-yet-disposed tracker state, calling `run`
synchronously sets the state to exactly
`{status: pending, data: null, error: null}`. -/
theorem C4_run_sets_pending (s : Sys) (hd : s.disposed = false) :
    getState (doRun s) = pendingState := by
  show (safeDispatch s pendingState).st = pendingState
  rw [safeDispatch_of_live s pendingState hd]

theorem C4_witness : getState (doRun w0) = pendingState :=
  C4_run_sets_pending w0 rfl

/-- Claim C5: the tracker's operations are total functions of their
inputs — they never raise — and when the underlying operation fails with
reason `e` (tracker not disposed) the failure is absorbed into the state
as status rejected with `error = e` and `data = null`, never re-raised. -/
theorem C5_failure_absorbed (s : Sys) (i : Nat) (e : String) (hd : s.disposed = false) :
    getState (settle s i (Outcome.err e)) = rejectedState e ∧
      (getState (settle s i (Outcome.err e))).status = Status.rejected ∧
      (getState (settle s i (Outcome.err e))).error = some e ∧
      (getState (settle s i (Outcome.err e))).data = none := by
  have hst : getState (settle s i (Outcome.err e)) = rejectedState e := by
    show (safeDispatch s (rejectedState e)).st = rejectedState e
    rw [safeDispatch_of_live s (rejectedState e) hd]
  exact ⟨hst, by rw [hst]; rfl, by rw [hst]; rfl, by rw [hst]; rfl⟩

theorem C5_witness :
    getState (settle w1 0 (Outcome.err "nope")) = rejectedState "nope" ∧
      (getState (settle w1 0 (Outcome.err "nope"))).status = Status.rejected ∧
      (getState (settle w1 0 (Outcome.err "nope"))).error = some "nope" ∧
      (getState (settle w1 0 (Outcome.err "nope"))).data = none :=
  C5_failure_absorbed w1 0 "nope" rfl

theorem dispose_iterate (s : Sys) (n : Nat) : doDispose^[n + 1] s = doDispose s := by
  induction n with
  | zero => rfl
  | succ k ih => rw [Function.iterate_succ_apply', ih]; rfl

/-- Claim C6: `dispose()` is idempotent — any number `n ≥ 1` of calls
yields the same tracker state as one call: the disposal flag set and
every other component (TaskState, in-flight set, counter, run handle)
unchanged. -/
theorem C6_dispose_idempotent (s : Sys) (n : Nat) (hn : 0 < n) :
    doDispose^[n] s = doDispose s ∧ doDispose (doDispose s) = doDispose s ∧
      getState (doDispose s) = getState s ∧ (doDispose s).live = s.live ∧
      (doDispose s).next = s.next ∧ (doDispose s).runTok = s.runTok ∧
      (doDispose s).disposed = true := by
  obtain ⟨m, rfl⟩ : ∃ m, n = m + 1 := ⟨n - 1, (Nat.succ_pred_eq_of_pos hn).symm⟩
  exact ⟨dispose_iterate s m, rfl, rfl, rfl, rfl, rfl, rfl⟩

theorem C6_witness :
    doDispose^[2] w1 = doDispose w1 ∧ doDispose (doDispose w1) = doDispose w1 ∧
      getState (doDispose w1) = getState w1 ∧ (doDispose w1).live = w1.live ∧
      (doDispose w1).next = w1.next ∧ (doDispose w1).runTok = w1.runTok ∧
      (doDispose w1).disposed = true :=
  C6_dispose_idempotent w1 2 (by decide)

/-- Claim C7: the `run` entry point is constructed once at tracker
initialization (its token is fixed by `init`) and no step of the
tracker's lifetime replaces it, so repeated accesses observe the
identical handle. -/
theorem C7_run_handle_stable (s s' : Sys) (h : Relation.ReflTransGen Step s s') :
    s'.runTok = s.runTok := by
  induction h with
  | refl => rfl
  | tail h1 h2 ih => exact (step_runTok _ _ h2).trans ih

theorem C7_witness : w2.runTok = w0.runTok :=
  C7_run_handle_stable w0 w2 reach_w2

/-- Claim C8: with two operations in flight (a second `run` before the
first settled) and the tracker not disposed, transitions apply in
settlement order and the last one wins — in this interleaving the stale
operation 0 settles after the newer operation 1 and overwrites its
state. -/
theorem C8_stale_overwrite :
    Relation.ReflTransGen Step (init tIdle) w3 ∧ w3.disposed = false ∧
      getState w3 = resolvedState "new" ∧ Step w3 w4 ∧
      getState w4 = resolvedState "stale" :=
  ⟨reach_w3, by decide, by decide, Step.settleOk w3 0 "stale" (by decide), by decide⟩

/-- Claim C9: every step of the tracker replaces the TaskState record
wholesale — the post-step state is either untouched (guarded dispatch) or
exactly the constant pending record, a resolved record built only from
the settled value, or a rejected record built only from the failure
reason; no field is merged in from the prior state. -/
theorem C9_wholesale_replacement (s s' : Sys) (h : Step s s') :
    getState s' = getState s ∨ getState s' = pendingState ∨
      (∃ v, getState s' = resolvedState v) ∨ (∃ e, getState s' = rejectedState e) := by
  cases h with
  | run =>
      have hx : getState (doRun s) = if s.disposed then s.st else pendingState :=
        safeDispatch_st s pendingState
      rw [hx]
      split
      · exact Or.inl rfl
      · exact Or.inr (Or.inl rfl)
  | dispose => exact Or.inl rfl
  | settleOk i v hm =>
      have hx : getState (doSettleOk s i v) = if s.disposed then s.st else resolvedState v :=
        safeDispatch_st s (resolvedState v)
      rw [hx]
      split
      · exact Or.inl rfl
      · exact Or.inr (Or.inr (Or.inl ⟨v, rfl⟩))
  | settleErr i e hm =>
      have hx : getState (doSettleErr s i e) = if s.disposed then s.st else rejectedState e :=
        safeDispatch_st s (rejectedState e)
      rw [hx]
      split
      · exact Or.inl rfl
      · exact Or.inr (Or.inr (Or.inr ⟨e, rfl⟩))

theorem C9_witness :
    getState w1 = getState w0 ∨ getState w1 = pendingState ∨
      (∃ v, getState w1 = resolvedState v) ∨ (∃ e, getState w1 = rejectedState e) :=
  C9_wholesale_replacement w0 w1 (Step.run w0)

end AsyncTracker

namespace Ex01

theorem getField_setField (o : JsObj) (k k2 : String) (v : Int) :
    getField (setField o k v) k2 = if k2 = k then some v else getField o k2 := by
  induction o with
  | nil =>
      by_cases h : k = k2
      · subst h; simp [setField, getField]
      · simp [setField, getField, h, Ne.symm h]
  | cons p rest ih =>
      obtain ⟨k1, v1⟩ := p
      by_cases h1 : k1 = k
      · subst h1
        by_cases h2 : k1 = k2
        · subst h2; simp [setField, getField]
        · simp [setField, getField, h2, Ne.symm h2]
      · by_cases h2 : k1 = k2
        · subst h2
          simp [setField, getField, h1, Ne.symm h1]
        · simp [setField, getField, h1, h2, ih]

theorem getField_spreadMerge_of_absent (s r : JsObj) (k : String)
    (h : getField r k = none) : getField (spreadMerge s r) k = getField s k := by
  induction r generalizing s with
  | nil => rfl
  | cons p rest ih =>
      obtain ⟨k1, v1⟩ := p
      have h1 : ¬ k1 = k := by
        intro hk
        simp only [getField, if_pos hk] at h
        exact Option.noConfusion h
      have h2 : getField rest k = none := by
        simpa only [getField, if_neg h1] using h
      show getField (spreadMerge (setField s k1 v1) rest) k = getField s k
      rw [ih (setField s k1 v1) h2, getField_setField]
      rw [if_neg (fun hh : k = k1 => h1 hh.symm)]

/-- Claim C10 (amended): `countReducer` applied to an object action is
exactly the spread-merge `{...state, ...action}`, so every field of the
state whose key is absent from the action is preserved unchanged; and for
a function action `f` whose application `f state` yields a plain object
action, `countReducer state f = countReducer state (f state)` — the
unrestricted equation over all function actions fails, because the
`typeof` check resolves a function action only once. -/
theorem C10_countReducer_merge (s r : JsObj) (k : String) (f : JsObj → Action)
    (hk : getField r k = none) (hf : ∃ r2, f s = Action.obj r2) :
    countReducer s (Action.obj r) = spreadMerge s r ∧
      getField (countReducer s (Action.obj r)) k = getField s k ∧
      countReducer s (Action.fn f) = countReducer s (f s) := by
  refine ⟨rfl, getField_spreadMerge_of_absent s r k hk, ?_⟩
  obtain ⟨r2, h2⟩ := hf
  show applyAction s (f s) = countReducer s (f s)
  rw [h2]
  rfl

theorem C10_witness :
    countReducer c0 (Action.obj [("other", 5)]) = spreadMerge c0 [("other", 5)] ∧
      getField (countReducer c0 (Action.obj [("other", 5)])) "count" = getField c0 "count" ∧
      countReducer c0 (Action.fn (fun _ => Action.obj [("other", 5)])) =
        countReducer c0 ((fun _ => Action.obj [("other", 5)]) c0) :=
  C10_countReducer_merge c0 [("other", 5)] "count"
    (fun _ => Action.obj [("other", 5)]) (by decide) ⟨[("other", 5)], rfl⟩

/-- Claim C10 is false as stated: for the function action `fBad`, which
returns a function action, `countReducer c0 fBad` spreads a function
(contributing no fields, so the state is unchanged) while
`countReducer c0 (fBad c0)` resolves the returned function once more and
merges `{count: 1}`, so the claimed equation fails. -/
theorem C10_cx :
    countReducer c0 (Action.fn fBad) = [("count", 0)] ∧
      countReducer c0 (fBad c0) = [("count", 1)] ∧
      countReducer c0 (Action.fn fBad) ≠ countReducer c0 (fBad c0) :=
  ⟨rfl, by decide, by decide⟩

end Ex01
